import Mathlib

/-!
Verification development for the AutoDocs README generator.

The development shallowly embeds the analysis pipeline of the repository:
the legacy scanner in `core.py` (directory walk with a deny-list, remote
versus local path classification, ephemeral clone-directory lifecycle) and
the pipeline components whose implementation files are not shipped with the
sources (language detection, dependency extraction, template assembly,
diagram generation); the latter are modelled from the specification, as
marked on each definition.
-/

namespace AutoDocs

/-- Dependency record of the data model: package name, optional version,
and a development flag fixed at construction. -/
structure Dependency where
  name : String
  version : Option String
  dev : Bool
deriving DecidableEq

/-- Dependencies: runtime and development dependency lists. -/
structure Dependencies where
  runtime : List Dependency
  development : List Dependency
deriving DecidableEq

/-- Script record of the data model: name, command, optional description. -/
structure Script where
  name : String
  command : String
  description : Option String
deriving DecidableEq

/-- FileInfo record of the data model. -/
structure FileInfo where
  path : String
  name : String
  extension : String
  size : Nat
deriving DecidableEq

/-- ProjectStructure: output of the scanner. -/
structure ProjectStructure where
  root_path : String
  files : List FileInfo
  directories : List String
  tree : String
deriving DecidableEq

/-- Language record: name, confidence and indicator paths. -/
structure Language where
  name : String
  confidence : ℚ
  indicators : List String
deriving DecidableEq

/-- Modelled from the spec: the two-character comparison operators of the
line-oriented requirements manifest, tested at a position. -/
def twoCharOp (a b : Char) : Bool :=
  (a == '=' && b == '=') || (a == '>' && b == '=') ||
  (a == '<' && b == '=') || (a == '~' && b == '=')

/-- Modelled from the spec: the one-character comparison operators. -/
def oneCharOp (a : Char) : Bool := a == '>' || a == '<'

/-- Modelled from the spec: test whether one of the recognized comparison
operators occurs at the head of the character list; returns its length.
Two-character operators take precedence over one-character ones. -/
def opAt : List Char → Option Nat
  | a :: b :: _ =>
    if twoCharOp a b then some 2 else if oneCharOp a then some 1 else none
  | [a] => if oneCharOp a then some 1 else none
  | [] => none

/-- Modelled from the spec (missing file app/extractors.py): split a
requirement line on the first recognized comparison operator; the left
side is the package name, the right side the version when present. -/
def splitOnFirstOp : List Char → List Char × Option (List Char)
  | [] => ([], none)
  | c :: rest =>
    match opAt (c :: rest) with
    | some k => ([], some (List.drop k (c :: rest)))
    | none =>
      let p := splitOnFirstOp rest
      (c :: p.1, p.2)

/-- Whitespace test used when trimming manifest lines. -/
def isSpaceChar (c : Char) : Bool :=
  c == ' ' || c == '\t' || c == '\r' || c == '\n'

/-- Trim whitespace from both ends of a character list. -/
def trimChars (cs : List Char) : List Char :=
  ((cs.dropWhile isSpaceChar).reverse.dropWhile isSpaceChar).reverse

/-- Split a character list into lines at newline characters. -/
def splitLinesChars : List Char → List (List Char)
  | [] => [[]]
  | c :: rest =>
    if c == '\n' then [] :: splitLinesChars rest
    else
      match splitLinesChars rest with
      | [] => [[c]]
      | l :: ls => (c :: l) :: ls

/-- Modelled from the spec (missing file app/extractors.py): parse one
line of a line-oriented requirements manifest.  Blank lines and comment
lines are skipped; otherwise the line is split on the first recognized
comparison operator into name and optional version, always runtime. -/
def parseReqLine (cs : List Char) : Option Dependency :=
  let t := trimChars cs
  if t = [] then none
  else if t.head? = some '#' then none
  else
    let p := splitOnFirstOp t
    some ⟨String.mk p.1, p.2.map String.mk, false⟩

/-- Modelled from the spec (missing file app/extractors.py): parse a
line-oriented requirements manifest into a Dependencies value; all
entries land in runtime and development stays empty. -/
def parse_requirements (content : String) : Dependencies :=
  { runtime := (splitLinesChars content.data).filterMap parseReqLine
    development := [] }

/-- Helper: splitting a list whose first segment contains no operator
occurrence reduces to splitting the remainder, with the clean segment
prepended to the name part. -/
theorem splitOnFirstOp_append (pre rest : List Char)
    (h : ∀ i < pre.length, opAt (List.drop i (pre ++ rest)) = none) :
    splitOnFirstOp (pre ++ rest) =
      ((pre ++ (splitOnFirstOp rest).1), (splitOnFirstOp rest).2) := by
  induction pre with
  | nil => simp
  | cons c cs ih =>
    have h0 : opAt (c :: (cs ++ rest)) = none := by
      have := h 0 (by simp)
      simpa using this
    have hrec : ∀ i < cs.length, opAt (List.drop i (cs ++ rest)) = none := by
      intro i hi
      have := h (i + 1) (by simpa using Nat.succ_lt_succ hi)
      simpa using this
    simp only [List.cons_append, splitOnFirstOp, List.append_eq, h0, ih hrec]

/-- Ecosystem description used by language detection: canonical language
name, recognized source extensions, indicator file names. -/
structure LangSpec where
  name : String
  exts : List String
  indicatorFiles : List String
deriving DecidableEq

/-- Modelled from the spec (missing file app/detectors.py): the fixed
table of recognized ecosystems. -/
def LANG_SPECS : List LangSpec :=
  [⟨"Python", [".py"], ["requirements.txt", "setup.py", "pyproject.toml", "Pipfile"]⟩,
   ⟨"JavaScript", [".js", ".ts"], ["package.json"]⟩,
   ⟨"Java", [".java"], ["pom.xml", "build.gradle"]⟩,
   ⟨"Go", [".go"], ["go.mod"]⟩,
   ⟨"Rust", [".rs"], ["Cargo.toml"]⟩]

/-- Source files of the structure whose extension maps to the language. -/
def sourceFilesFor (s : ProjectStructure) (ls : LangSpec) : List FileInfo :=
  s.files.filter (fun f => ls.exts.contains f.extension)

/-- Indicator files of the structure signalling the language. -/
def indicatorFilesFor (s : ProjectStructure) (ls : LangSpec) : List FileInfo :=
  s.files.filter (fun f => ls.indicatorFiles.contains f.name)

/-- Modelled from the spec: the weight of a language in the confidence
ratio; the source-file count, or, when no source file of the language is
present, each indicator file counts as one synthetic file. -/
def effectiveCount (s : ProjectStructure) (ls : LangSpec) : Nat :=
  if (sourceFilesFor s ls).length > 0 then (sourceFilesFor s ls).length
  else (indicatorFilesFor s ls).length

/-- Denominator of the confidence ratio: total weight over all
recognized ecosystems. -/
def totalCount (s : ProjectStructure) : Nat :=
  (LANG_SPECS.map (effectiveCount s)).sum

/-- Modelled from the spec (missing file app/detectors.py): aggregate
language detection; each detected language carries the ratio of its
weight over the total weight as confidence, and its source and
indicator paths as indicators. -/
def detect_languages (s : ProjectStructure) : List Language :=
  (LANG_SPECS.filter (fun ls => effectiveCount s ls != 0)).map fun ls =>
    ⟨ls.name, (effectiveCount s ls : ℚ) / (totalCount s : ℚ),
     ((sourceFilesFor s ls).map FileInfo.path) ++
       ((indicatorFilesFor s ls).map FileInfo.path)⟩

/-- Keep the language of higher confidence, the accumulator on ties. -/
def pickBetter (a b : Language) : Language :=
  if a.confidence < b.confidence then b else a

/-- Modelled from the spec (missing file app/detectors.py): the primary
language is the detected language of highest confidence. -/
def get_primary_language : List Language → Option Language
  | [] => none
  | l :: rest => some (rest.foldl pickBetter l)

/-- Helper: dropping the zero-weight entries does not change a sum. -/
theorem sum_map_filter_ne_zero {α : Type} (l : List α) (f : α → Nat) :
    ((l.filter (fun a => f a != 0)).map f).sum = (l.map f).sum := by
  induction l with
  | nil => simp
  | cons a t ih =>
    by_cases h : f a = 0
    · simp [List.filter_cons, h, ih]
    · simp [List.filter_cons, h, ih]

/-- Helper: a sum of rationals with common denominator. -/
theorem sum_map_div (ns : List Nat) (T : ℚ) :
    (ns.map (fun n : Nat => (n : ℚ) / T)).sum = (ns.sum : ℚ) / T := by
  induction ns with
  | nil => simp
  | cons n t ih => simp [ih, Nat.cast_add, add_div]

/-- Helper: a fold with pickBetter returns the seed or a list member. -/
theorem foldl_pickBetter_mem (rest : List Language) (l : Language) :
    rest.foldl pickBetter l = l ∨ rest.foldl pickBetter l ∈ rest := by
  induction rest generalizing l with
  | nil => left; rfl
  | cons r t ih =>
    rw [List.foldl_cons]
    rcases ih (pickBetter l r) with h | h
    · rw [h]
      unfold pickBetter
      by_cases hc : l.confidence < r.confidence
      · right; simp [hc]
      · left; simp [hc]
    · right; exact List.mem_cons_of_mem r h

/-- Helper: the seed confidence never exceeds the fold result. -/
theorem le_foldl_pickBetter (rest : List Language) (l : Language) :
    l.confidence ≤ (rest.foldl pickBetter l).confidence := by
  induction rest generalizing l with
  | nil => simp
  | cons r t ih =>
    rw [List.foldl_cons]
    refine le_trans ?_ (ih (pickBetter l r))
    unfold pickBetter
    by_cases hc : l.confidence < r.confidence
    · simp only [hc, if_true]
      exact le_of_lt hc
    · simp [hc]

/-- Helper: no list member confidence exceeds the fold result. -/
theorem mem_le_foldl_pickBetter (rest : List Language) (l x : Language)
    (hx : x ∈ rest) :
    x.confidence ≤ (rest.foldl pickBetter l).confidence := by
  induction rest generalizing l with
  | nil => cases hx
  | cons r t ih =>
    rw [List.foldl_cons]
    rcases List.mem_cons.mp hx with h | hm
    · subst h
      refine le_trans ?_ (le_foldl_pickBetter t (pickBetter l x))
      unfold pickBetter
      by_cases hc : l.confidence < x.confidence
      · simp [hc]
      · simp only [hc, if_false]
        exact le_of_not_lt hc
    · exact ih (pickBetter l r) hm

/-- Claim C1: for every scanned directory tree on which at least one
language is detected, the detection result has non-negative confidences
summing to 1.0 within a tolerance of 0.01, and the primary-language
query returns the language of highest confidence in that sequence. -/
theorem c1_detect_languages_spec (s : ProjectStructure)
    (h : detect_languages s ≠ []) :
    (∀ l ∈ detect_languages s, 0 ≤ l.confidence) ∧
    |((detect_languages s).map Language.confidence).sum - 1| < 1 / 100 ∧
    ∃ p, get_primary_language (detect_languages s) = some p ∧
      p ∈ detect_languages s ∧
      ∀ l ∈ detect_languages s, l.confidence ≤ p.confidence := by
  have hT : totalCount s ≠ 0 := by
    intro h0
    apply h
    have hall : ∀ ls ∈ LANG_SPECS, effectiveCount s ls = 0 := by
      intro ls hls
      have hz := List.sum_eq_zero_iff.mp h0
      exact hz _ (List.mem_map.mpr ⟨ls, hls, rfl⟩)
    unfold detect_languages
    rw [List.filter_eq_nil_iff.mpr ?_, List.map_nil]
    intro ls hls
    simp [hall ls hls]
  have hsum : ((detect_languages s).map Language.confidence).sum = 1 := by
    unfold detect_languages
    rw [List.map_map]
    have hfun : (Language.confidence ∘ fun ls =>
        Language.mk ls.name ((effectiveCount s ls : ℚ) / (totalCount s : ℚ))
          (((sourceFilesFor s ls).map FileInfo.path) ++
            ((indicatorFilesFor s ls).map FileInfo.path))) =
        (fun n : Nat => (n : ℚ) / (totalCount s : ℚ)) ∘ (effectiveCount s) := rfl
    rw [hfun, ← List.map_map, sum_map_div, sum_map_filter_ne_zero]
    exact div_self (by exact_mod_cast hT)
  refine ⟨?_, ?_, ?_⟩
  · intro l hl
    rcases List.mem_map.mp hl with ⟨ls, _, rfl⟩
    exact div_nonneg (Nat.cast_nonneg _) (Nat.cast_nonneg _)
  · rw [hsum]
    norm_num
  · rcases hd : detect_languages s with _ | ⟨a, rest⟩
    · exact absurd hd h
    · refine ⟨rest.foldl pickBetter a, rfl, ?_, ?_⟩
      · rcases foldl_pickBetter_mem rest a with hm | hm
        · rw [hm]; exact List.mem_cons_self a rest
        · exact List.mem_cons_of_mem a hm
      · intro l hl
        rcases List.mem_cons.mp hl with h1 | h1
        · subst h1; exact le_foldl_pickBetter rest l
        · exact mem_le_foldl_pickBetter rest a l h1

/-- Concrete project structure used to witness claim C1: two Python
source files and one JavaScript source file. -/
def c1Struct : ProjectStructure :=
  ⟨"/proj",
   [⟨"main.py", "main.py", ".py", 10⟩,
    ⟨"util.py", "util.py", ".py", 5⟩,
    ⟨"index.js", "index.js", ".js", 3⟩],
   [], ""⟩

/-- Witness for claim C1: the detection invariants instantiated at a
concrete three-file project. -/
theorem c1_detect_languages_spec_witness :
    (∀ l ∈ detect_languages c1Struct, 0 ≤ l.confidence) ∧
    |((detect_languages c1Struct).map Language.confidence).sum - 1| < 1 / 100 ∧
    ∃ p, get_primary_language (detect_languages c1Struct) = some p ∧
      p ∈ detect_languages c1Struct ∧
      ∀ l ∈ detect_languages c1Struct, l.confidence ≤ p.confidence :=
  c1_detect_languages_spec c1Struct (by decide)

/-- Claim C2: each non-comment non-blank line of a line-oriented
requirements manifest is split on the first recognized comparison
operator (the double-equals, greater-equal, less-equal, greater, less and
tilde-equal operators), yielding a runtime dependency whose name is the
left side and whose version is the right side when an operator is present
and absent otherwise; the manifest with the two lines flask pinned to
2.0.0 and a bare requests yields exactly those two runtime dependencies,
with the development list empty. -/
theorem c2_parse_requirements_spec :
    (∀ content, (parse_requirements content).development = []) ∧
    (∀ cs, trimChars cs ≠ [] → (trimChars cs).head? ≠ some '#' →
      parseReqLine cs =
        some ⟨String.mk (splitOnFirstOp (trimChars cs)).1,
              ((splitOnFirstOp (trimChars cs)).2).map String.mk, false⟩) ∧
    (∀ pre rest k, (∀ i < pre.length, opAt (List.drop i (pre ++ rest)) = none) →
      opAt rest = some k →
      splitOnFirstOp (pre ++ rest) = (pre, some (rest.drop k))) ∧
    (∀ cs, (∀ i < cs.length, opAt (List.drop i cs) = none) →
      splitOnFirstOp cs = (cs, none)) ∧
    parse_requirements "flask==2.0.0\nrequests" =
      ⟨[⟨"flask", some "2.0.0", false⟩, ⟨"requests", none, false⟩], []⟩ := by
  refine ⟨fun content => rfl, ?_, ?_, ?_, by decide⟩
  · intro cs h1 h2
    simp [parseReqLine, h1, h2]
  · intro pre rest k hpre hop
    have hsplit := splitOnFirstOp_append pre rest hpre
    cases rest with
    | nil => simp [opAt] at hop
    | cons c r =>
      rw [hsplit]
      simp [splitOnFirstOp, hop]
  · intro cs h
    induction cs with
    | nil => simp [splitOnFirstOp]
    | cons c r ih =>
      have h0 : opAt (c :: r) = none := by
        have := h 0 (by simp)
        simpa using this
      have hr : ∀ i < r.length, opAt (List.drop i r) = none := by
        intro i hi
        have := h (i + 1) (by simpa using Nat.succ_lt_succ hi)
        simpa using this
      simp [splitOnFirstOp, h0, ih hr]

/-- Witness for claim C2: the parsing facts instantiated at concrete
manifest lines, with every hypothesis discharged by evaluation. -/
theorem c2_parse_requirements_spec_witness :
    parseReqLine ("torch".data) = some ⟨"torch", none, false⟩ ∧
    splitOnFirstOp ("numpy".data ++ "~=1.2".data) =
      ("numpy".data, some ("1.2".data)) := by
  constructor
  · exact (c2_parse_requirements_spec.2.1 ("torch".data)
      (by decide) (by decide)).trans (by decide)
  · exact (c2_parse_requirements_spec.2.2.1 ("numpy".data) ("~=1.2".data) 2
      (by decide) (by decide)).trans (by decide)

/-- Modelled from the spec (missing file app/extractors.py): a structured
key-value manifest already decoded into its dependency map, development
dependency map and script map, as association lists. -/
structure PackageManifest where
  dependencies : List (String × String)
  devDependencies : List (String × String)
  scripts : List (String × String)
deriving DecidableEq

/-- Modelled from the spec (missing file app/extractors.py): every key
under the dependency map becomes a runtime dependency and every key under
the development map a development dependency; the version is the
associated map value. -/
def parse_package_json (m : PackageManifest) : Dependencies :=
  { runtime := m.dependencies.map (fun p => ⟨p.1, some p.2, false⟩)
    development := m.devDependencies.map (fun p => ⟨p.1, some p.2, true⟩) }

/-- Modelled from the spec: the script map becomes a Script collection,
descriptions always absent. -/
def extract_scripts (m : PackageManifest) : List Script :=
  m.scripts.map (fun p => ⟨p.1, p.2, none⟩)

/-- Claim C3: for every structured key-value manifest, every pair of the
dependency map becomes a runtime dependency with dev false, every pair of
the development map a development dependency with dev true, versions
equal the map values in both directions, and the one-dependency
one-script scenario from the specification evaluates as stated. -/
theorem c3_parse_package_json_spec (m : PackageManifest) :
    (∀ k v, (k, v) ∈ m.dependencies →
      (⟨k, some v, false⟩ : Dependency) ∈ (parse_package_json m).runtime) ∧
    (∀ k v, (k, v) ∈ m.devDependencies →
      (⟨k, some v, true⟩ : Dependency) ∈ (parse_package_json m).development) ∧
    (∀ d ∈ (parse_package_json m).runtime,
      d.dev = false ∧ ∃ v, d.version = some v ∧ (d.name, v) ∈ m.dependencies) ∧
    (∀ d ∈ (parse_package_json m).development,
      d.dev = true ∧ ∃ v, d.version = some v ∧ (d.name, v) ∈ m.devDependencies) ∧
    parse_package_json ⟨[("express", "^4.18.0")], [], [("start", "node index.js")]⟩ =
      ⟨[⟨"express", some "^4.18.0", false⟩], []⟩ ∧
    extract_scripts ⟨[("express", "^4.18.0")], [], [("start", "node index.js")]⟩ =
      [⟨"start", "node index.js", none⟩] := by
  refine ⟨?_, ?_, ?_, ?_, by decide, by decide⟩
  · intro k v h
    exact List.mem_map.mpr ⟨(k, v), h, rfl⟩
  · intro k v h
    exact List.mem_map.mpr ⟨(k, v), h, rfl⟩
  · intro d hd
    rcases List.mem_map.mp hd with ⟨⟨k, v⟩, hm, rfl⟩
    exact ⟨rfl, v, rfl, hm⟩
  · intro d hd
    rcases List.mem_map.mp hd with ⟨⟨k, v⟩, hm, rfl⟩
    exact ⟨rfl, v, rfl, hm⟩

/-- Witness for claim C3: the map-to-dependency directions instantiated
at a concrete two-entry manifest. -/
theorem c3_parse_package_json_spec_witness :
    (⟨"a", some "1", false⟩ : Dependency) ∈
      (parse_package_json ⟨[("a", "1")], [("b", "2")], []⟩).runtime ∧
    (⟨"b", some "2", true⟩ : Dependency) ∈
      (parse_package_json ⟨[("a", "1")], [("b", "2")], []⟩).development :=
  ⟨(c3_parse_package_json_spec ⟨[("a", "1")], [("b", "2")], []⟩).1 "a" "1"
      (by decide),
   (c3_parse_package_json_spec ⟨[("a", "1")], [("b", "2")], []⟩).2.1 "b" "2"
      (by decide)⟩

/-- Empty-but-valid Dependencies value. -/
def emptyDependencies : Dependencies := ⟨[], []⟩

/-- Modelled from the spec (missing files app/extractors.py and
app/analyzers.py): per-file extraction; an absent or unreadable file
(read result none) or a malformed file (parser returns none) degrades to
the empty result instead of raising. -/
def extract_file (parse : String → Option Dependencies) :
    Option String → Dependencies
  | none => emptyDependencies
  | some content => (parse content).getD emptyDependencies

/-- Merge of two extraction results. -/
def mergeDeps (a b : Dependencies) : Dependencies :=
  ⟨a.runtime ++ b.runtime, a.development ++ b.development⟩

/-- Modelled from the spec: the scan pipeline folds per-file extraction
over the read results of all files. -/
def scan_pipeline (parse : String → Option Dependencies)
    (reads : List (Option String)) : Dependencies :=
  reads.foldr (fun r acc => mergeDeps (extract_file parse r) acc)
    emptyDependencies

/-- Claim C4: extraction for an absent, unreadable or malformed file
degrades to the empty result, and the scan of the remaining files is
exactly the scan without that file: a single file never aborts the
pipeline. -/
theorem c4_parse_failure_isolated (parse : String → Option Dependencies)
    (pre post : List (Option String)) :
    extract_file parse none = emptyDependencies ∧
    (∀ c, parse c = none → extract_file parse (some c) = emptyDependencies) ∧
    scan_pipeline parse (pre ++ none :: post) = scan_pipeline parse (pre ++ post) ∧
    (∀ c, parse c = none →
      scan_pipeline parse (pre ++ some c :: post) =
        scan_pipeline parse (pre ++ post)) := by
  have hmerge : ∀ Y, mergeDeps emptyDependencies Y = Y := by
    intro Y
    cases Y
    simp [mergeDeps, emptyDependencies]
  refine ⟨rfl, ?_, ?_, ?_⟩
  · intro c h
    simp [extract_file, h]
  · simp [scan_pipeline, List.foldr_append, extract_file, hmerge]
  · intro c h
    simp [scan_pipeline, List.foldr_append, extract_file, h, hmerge]

/-- Witness for claim C4: failure isolation instantiated with a parser
that rejects everything and a concrete file list. -/
theorem c4_parse_failure_isolated_witness :
    scan_pipeline (fun _ => none) ([some "flask==2.0.0"] ++ none :: []) =
      scan_pipeline (fun _ => none) ([some "flask==2.0.0"] ++ []) ∧
    scan_pipeline (fun _ => none) ([] ++ some "bad json" :: []) =
      scan_pipeline (fun _ => none) ([] ++ []) :=
  ⟨(c4_parse_failure_isolated (fun _ => none) [some "flask==2.0.0"] []).2.2.1,
   (c4_parse_failure_isolated (fun _ => none) [] []).2.2.2 "bad json" rfl⟩

/-- Directory deny-list of the scanner, from core.py. -/
def IGNORE_DIRS : List String :=
  [".git", "node_modules", "venv", ".env", "__pycache__",
   "dist", "build", "target", "vendor", ".idea", ".vscode",
   "coverage", ".next", "__mocks__", "assets", "bin", "obj", "out",
   ".settings"]

/-- Deny-list membership test applied to a directory name. -/
def ignoredDir (name : String) : Bool := IGNORE_DIRS.contains name

mutual
/-- Directory tree: directory name, regular files, subdirectories. -/
inductive DirTree where
  | node (name : String) (files : List String) (subs : DirForest)
/-- Forest of sibling directories. -/
inductive DirForest where
  | nil
  | cons (t : DirTree) (rest : DirForest)
end

/-- Name of the root directory of a tree. -/
def treeName : DirTree → String
  | .node n _ _ => n

/-- One visited directory of the walk: its path relative to the scan
root, as components, and its regular files. -/
structure WalkEntry where
  relPath : List String
  files : List String
deriving DecidableEq

mutual
/-- Embedding of the os.walk traversal in the tree scan of core.py: the
visited directory is reported, then its subdirectories are filtered
against the deny-list in place and only the kept ones are descended
into. -/
def walkTree (pre : List String) : DirTree → List WalkEntry
  | .node _ fs subs => ⟨pre, fs⟩ :: walkForest pre subs
/-- Walk of the filtered subdirectory list. -/
def walkForest (pre : List String) : DirForest → List WalkEntry
  | .nil => []
  | .cons t rest =>
    if ignoredDir (treeName t) then walkForest pre rest
    else walkTree (pre ++ [treeName t]) t ++ walkForest pre rest
end

mutual
/-- Recursively remove every denied directory from a tree. -/
def pruneTree : DirTree → DirTree
  | .node n fs subs => .node n fs (pruneForest subs)
/-- Recursively remove every denied directory from a forest. -/
def pruneForest : DirForest → DirForest
  | .nil => .nil
  | .cons t rest =>
    if ignoredDir (treeName t) then pruneForest rest
    else .cons (pruneTree t) (pruneForest rest)
end

/-- Suffix test on file names, standing in for the extension checks of
the code analysis in core.py. -/
def hasSfx (sfx : String) (f : String) : Bool := sfx.data.isSuffixOf f.data

/-- Count the walked files carrying one of the given extensions. -/
def countExt (entries : List WalkEntry) (exts : List String) : Nat :=
  (entries.map
    (fun e => (e.files.filter (fun f => exts.any (fun x => hasSfx x f))).length)).sum

/-- Per-language file counters of the tree scan, from core.py. -/
structure ScanStats where
  python : Nat
  node : Nat
  java : Nat
  go : Nat
deriving DecidableEq

/-- File-count statistics computed by the tree scan of core.py. -/
def scanStats (t : DirTree) : ScanStats :=
  ⟨countExt (walkTree [] t) [".py"],
   countExt (walkTree [] t) [".js", ".ts"],
   countExt (walkTree [] t) [".java"],
   countExt (walkTree [] t) [".go"]⟩

/-- An entry whose relative path has no denied component. -/
def cleanEntry (e : WalkEntry) : Bool :=
  e.relPath.all (fun c => !ignoredDir c)

mutual
/-- Helper: starting from a clean path, the walk visits only clean
directories. -/
theorem walkTree_clean (pre : List String) (t : DirTree)
    (h : pre.all (fun c => !ignoredDir c) = true) :
    ((walkTree pre t).all cleanEntry) = true := by
  cases t with
  | node n fs subs =>
    simp only [walkTree, List.all_cons, Bool.and_eq_true]
    exact ⟨h, walkForest_clean pre subs h⟩
/-- Helper: forest version of the clean-walk invariant. -/
theorem walkForest_clean (pre : List String) (f : DirForest)
    (h : pre.all (fun c => !ignoredDir c) = true) :
    ((walkForest pre f).all cleanEntry) = true := by
  cases f with
  | nil => simp [walkForest]
  | cons t rest =>
    by_cases hig : ignoredDir (treeName t)
    · simp only [walkForest]
      rw [if_pos hig]
      exact walkForest_clean pre rest h
    · have hpre2 : (pre ++ [treeName t]).all (fun c => !ignoredDir c) = true := by
        simp [List.all_append, h, hig]
      simp only [walkForest]
      rw [if_neg hig, List.all_append, Bool.and_eq_true]
      exact ⟨walkTree_clean (pre ++ [treeName t]) t hpre2,
             walkForest_clean pre rest h⟩
end

mutual
/-- Helper: the walk of a pruned tree equals the walk of the tree. -/
theorem walkTree_prune (pre : List String) (t : DirTree) :
    walkTree pre (pruneTree t) = walkTree pre t := by
  cases t with
  | node n fs subs =>
    simp only [pruneTree, walkTree]
    rw [walkForest_prune pre subs]
/-- Helper: forest version of the prune-walk equality. -/
theorem walkForest_prune (pre : List String) (f : DirForest) :
    walkForest pre (pruneForest f) = walkForest pre f := by
  cases f with
  | nil => rfl
  | cons t rest =>
    by_cases hig : ignoredDir (treeName t)
    · simp only [pruneForest]
      rw [if_pos hig]
      simp only [walkForest]
      rw [if_pos hig, walkForest_prune pre rest]
    · have hn : treeName (pruneTree t) = treeName t := by
        cases t
        rfl
      simp only [pruneForest]
      rw [if_neg hig]
      simp only [walkForest, hn]
      rw [if_neg hig, if_neg hig, walkTree_prune (pre ++ [treeName t]) t,
        walkForest_prune pre rest]
end

/-- Claim C5: the tree scan never descends into a directory on the fixed
deny-list: every visited directory has a deny-list-free relative path,
the whole walk output of a tree equals that of the tree with all denied
subtrees removed, and the per-language file counts therefore never see a
file inside a denied directory. -/
theorem c5_ignore_dirs_never_descended (t : DirTree) :
    ((walkTree [] t).all cleanEntry) = true ∧
    walkTree [] (pruneTree t) = walkTree [] t ∧
    scanStats (pruneTree t) = scanStats t := by
  refine ⟨walkTree_clean [] t (by simp), walkTree_prune [] t, ?_⟩
  simp [scanStats, walkTree_prune [] t]

/-- Remote-versus-local classification of the scanner constructor in
core.py: the input counts as remote exactly when the path string starts
with http or ends with the git suffix. -/
def is_remote (path : String) : Bool :=
  "http".data.isPrefixOf path.data || ".git".data.isSuffixOf path.data

/-- Kind of an existing local filesystem entry. -/
inductive LocalEntry where
  | file
  | dir
deriving DecidableEq

/-- Action taken by setup_path in core.py after classifying the input
path: attempt a clone, scan the local path in place, or fail because the
local path does not exist; local validation only asks the filesystem
whether the path exists. -/
inductive SetupAction where
  | cloneAttempt
  | scanLocal
  | errorPathMissing
deriving DecidableEq

/-- Embedding of the path classification and local validation performed
by setup_path in core.py over an abstract filesystem. -/
def setup_path_action (fs : String → Option LocalEntry) (p : String) :
    SetupAction :=
  if is_remote p then .cloneAttempt
  else
    match fs p with
    | none => .errorPathMissing
    | some _ => .scanLocal

/-- Claim C10: the remote decision depends only on the http start and
git-suffix string tests; an existing local directory whose name ends in
the git suffix is classified as remote and a clone is attempted instead
of scanning it, and local validation accepts a path that exists as a
plain file, checking existence only. -/
theorem c10_is_remote_string_only :
    (∀ p q : String,
      "http".data.isPrefixOf p.data = "http".data.isPrefixOf q.data →
      ".git".data.isSuffixOf p.data = ".git".data.isSuffixOf q.data →
      is_remote p = is_remote q) ∧
    (∀ (fs : String → Option LocalEntry) (p : String),
      fs p = some .dir → ".git".data.isSuffixOf p.data = true →
      setup_path_action fs p = .cloneAttempt) ∧
    (∀ (fs : String → Option LocalEntry) (p : String),
      is_remote p = false → fs p = some .file →
      setup_path_action fs p = .scanLocal) := by
  refine ⟨?_, ?_, ?_⟩
  · intro p q h1 h2
    simp [is_remote, h1, h2]
  · intro fs p hfs hsfx
    have hrem : is_remote p = true := by
      simp [is_remote, hsfx]
    simp [setup_path_action, hrem]
  · intro fs p hrem hfs
    simp [setup_path_action, hrem, hfs]

/-- Witness for claim C10: an existing local directory named with a git
suffix triggers a clone attempt, and an existing plain file passes local
validation. -/
theorem c10_is_remote_string_only_witness :
    setup_path_action (fun _ => some .dir) "/home/user/backup.git" =
      .cloneAttempt ∧
    setup_path_action (fun _ => some .file) "/home/user/notes.txt" =
      .scanLocal :=
  ⟨c10_is_remote_string_only.2.1 (fun _ => some .dir) "/home/user/backup.git"
      rfl (by decide),
   c10_is_remote_string_only.2.2 (fun _ => some .file) "/home/user/notes.txt"
      (by decide) rfl⟩

/-- Filesystem world for the clone lifecycle: the set of existing
ephemeral directories, by identifier. -/
structure World where
  dirs : List Nat
deriving DecidableEq

/-- Identifier never present in the list: one past the maximum. -/
def freshId (l : List Nat) : Nat := l.foldr max 0 + 1

/-- Embedding of tempfile.mkdtemp in core.py: create a fresh directory. -/
def mkdtemp (w : World) : Nat × World :=
  (freshId w.dirs, ⟨freshId w.dirs :: w.dirs⟩)

/-- Embedding of the cleanup method of core.py: remove the recorded
temporary directory when it is set and still exists, otherwise do
nothing. -/
def cleanup (tempDir : Option Nat) (w : World) : World :=
  match tempDir with
  | none => w
  | some d => if w.dirs.contains d then ⟨w.dirs.erase d⟩ else w

/-- Errors surfaced by the pipeline of core.py. -/
inductive PipeError where
  | cloneFailed (msg : String)
  | scanFailed (msg : String)
  | localPathMissing
deriving DecidableEq

/-- Embedding of setup_path in core.py: for a remote input a temporary
directory is created and the clone attempted; on clone failure cleanup
runs and the error is re-raised wrapped with its cause message.  Returns
the raised-or-ok result, the recorded temporary directory and the world. -/
def setup_path (isRem : Bool) (cloneResult : Except String Unit)
    (localExists : Bool) (w : World) :
    Except PipeError Unit × Option Nat × World :=
  if isRem then
    let d := (mkdtemp w).1
    let w1 := (mkdtemp w).2
    match cloneResult with
    | .ok _ => (.ok (), some d, w1)
    | .error msg =>
      (.error (.cloneFailed ("Clone failed: " ++ msg)), some d,
        cleanup (some d) w1)
  else
    if localExists then (.ok (), none, w)
    else (.error .localPathMissing, none, w)

/-- Embedding of generate_readme in core.py: setup, scan and build, with
cleanup in a finally clause on every path. -/
def generate_readme (isRem : Bool) (cloneResult : Except String Unit)
    (localExists : Bool) (scanResult : Except String String) (w : World) :
    Except PipeError String × World :=
  match setup_path isRem cloneResult localExists w with
  | (.error e, td, w1) => (.error e, cleanup td w1)
  | (.ok _, td, w1) =>
    match scanResult with
    | .error msg => (.error (.scanFailed msg), cleanup td w1)
    | .ok md => (.ok md, cleanup td w1)

/-- Helper: every member of a list is bounded by the fold with max. -/
theorem mem_le_foldr_max (l : List Nat) (x : Nat) (hx : x ∈ l) :
    x ≤ l.foldr max 0 := by
  induction l with
  | nil => cases hx
  | cons a t ih =>
    rcases List.mem_cons.mp hx with h | h
    · subst h
      exact le_max_left _ _
    · exact le_trans (ih h) (le_max_right _ _)

/-- Helper: the fresh identifier is not in the list. -/
theorem freshId_not_mem (l : List Nat) : freshId l ∉ l := by
  intro hmem
  have := mem_le_foldr_max l (freshId l) hmem
  simp [freshId] at this

/-- Claim C9: for every remote-repository input, the ephemeral clone
directory is removed on the success path, on the clone-failure path and
on the later-failure path, restoring the filesystem to its prior state;
a clone failure is surfaced re-raised with its cause message wrapped in
the clone-failed error. -/
theorem c9_clone_cleanup (cloneResult : Except String Unit)
    (localExists : Bool) (scanResult : Except String String) (w : World) :
    (generate_readme true cloneResult localExists scanResult w).2 = w ∧
    ((generate_readme true cloneResult localExists scanResult w).2.dirs.contains
        (freshId w.dirs)) = false ∧
    (∀ msg, cloneResult = .error msg →
      (generate_readme true cloneResult localExists scanResult w).1 =
        .error (.cloneFailed ("Clone failed: " ++ msg))) := by
  have hfresh : w.dirs.contains (freshId w.dirs) = false := by
    simpa using freshId_not_mem w.dirs
  have herase : (freshId w.dirs :: w.dirs).erase (freshId w.dirs) = w.dirs := by
    simp [List.erase_cons_head]
  have hrestore : (generate_readme true cloneResult localExists scanResult w).2 = w := by
    cases cloneResult with
    | error msg =>
      simp only [generate_readme, setup_path, if_pos rfl, mkdtemp]
      simp only [cleanup, List.contains_cons, beq_self_eq_true, Bool.true_or,
        if_pos, herase]
      simp only [hfresh]
      simp [herase]
    | ok u =>
      cases scanResult with
      | error m =>
        simp only [generate_readme, setup_path, if_pos rfl, mkdtemp, cleanup]
        simp [herase]
      | ok md =>
        simp only [generate_readme, setup_path, if_pos rfl, mkdtemp, cleanup]
        simp [herase]
  refine ⟨hrestore, ?_, ?_⟩
  · rw [hrestore]
    exact hfresh
  · intro msg hmsg
    subst hmsg
    simp [generate_readme, setup_path, mkdtemp]

/-- Witness for claim C9: the cleanup and re-raise facts at a concrete
failing clone over a concrete world. -/
theorem c9_clone_cleanup_witness :
    (generate_readme true (.error "network down") true (.ok "doc")
        ⟨[3, 7]⟩).2 = ⟨[3, 7]⟩ ∧
    (generate_readme true (.error "network down") true (.ok "doc")
        ⟨[3, 7]⟩).1 =
      .error (.cloneFailed ("Clone failed: " ++ "network down")) :=
  ⟨(c9_clone_cleanup (.error "network down") true (.ok "doc") ⟨[3, 7]⟩).1,
   (c9_clone_cleanup (.error "network down") true (.ok "doc") ⟨[3, 7]⟩).2.2
      "network down" rfl⟩

/-- Diagram-type declaration test: a graph or flow declaration line. -/
def isTypeDecl (l : String) : Bool :=
  "graph ".data.isPrefixOf l.data || "flowchart ".data.isPrefixOf l.data

/-- Stable collision-free node identifier sequence: an uppercase letter
optionally followed by digits. -/
def nodeId (i : Nat) : String := "A" ++ (if i = 0 then "" else toString i)

/-- Modelled from the spec (missing file app/generators.py): node and
edge lines of the architecture diagram; a degenerate single-node diagram
for zero components. -/
def archBody : List String → List String
  | [] => ["A[Application]"]
  | comps =>
    (comps.mapIdx fun i c => nodeId i ++ "[" ++ c ++ "]") ++
      ((List.range (comps.length - 1)).map fun i =>
        nodeId i ++ " --> " ++ nodeId (i + 1))

/-- Modelled from the spec (missing file app/generators.py): the
architecture diagram is a fenced code block with a graph declaration
carrying an explicit direction token, indented body lines and a closing
fence. -/
def generate_architecture_diagram (components : List String) : List String :=
  "```mermaid" :: "graph TD" ::
    ((archBody components).map (fun s => "    " ++ s) ++ ["```"])

/-- Modelled from the spec: steps of the workflow diagram. -/
def workflowBody (lang : String) : List String :=
  ["S[Start] --> R[Run " ++ lang ++ " app]", "R --> E[End]"]

/-- Modelled from the spec (missing file app/generators.py): the
workflow diagram is a fenced code block with a flow declaration carrying
an explicit direction token. -/
def generate_workflow_diagram (lang : String) : List String :=
  "```mermaid" :: "flowchart TD" ::
    ((workflowBody lang).map (fun s => "    " ++ s) ++ ["```"])

/-- Helper: an indented line is never the opening fence marker. -/
theorem indented_ne_open (s : String) : ("    " ++ s) ≠ "```mermaid" := by
  intro h
  have h2 := congrArg String.data h
  simp [String.data_append] at h2

/-- Helper: an indented line is never the closing fence marker. -/
theorem indented_ne_close (s : String) : ("    " ++ s) ≠ "```" := by
  intro h
  have h2 := congrArg String.data h
  simp [String.data_append] at h2

/-- Helper: an indented line is never a diagram-type declaration. -/
theorem indented_not_decl (s : String) : isTypeDecl ("    " ++ s) = false := by
  simp [isTypeDecl, String.data_append, List.isPrefixOf]

/-- Helper: fence and declaration bookkeeping of a generated fenced
diagram block with arbitrary body lines. -/
theorem fenced_lines_spec (decl : String) (body : List String)
    (h1 : decl ≠ "```mermaid") (h2 : decl ≠ "```")
    (h3 : isTypeDecl decl = true) :
    ("```mermaid" :: decl :: (body.map (fun s => "    " ++ s) ++ ["```"])).count
        "```mermaid" = 1 ∧
    ("```mermaid" :: decl :: (body.map (fun s => "    " ++ s) ++ ["```"])).count
        "```" = 1 ∧
    ("```mermaid" :: decl :: (body.map (fun s => "    " ++ s) ++ ["```"])).indexOf
        "```mermaid" <
      ("```mermaid" :: decl :: (body.map (fun s => "    " ++ s) ++ ["```"])).indexOf
        "```" ∧
    ("```mermaid" :: decl :: (body.map (fun s => "    " ++ s) ++ ["```"])).countP
        isTypeDecl = 1 := by
  have hopen0 : (body.map (fun s => "    " ++ s) ++ ["```"]).count "```mermaid" = 0 := by
    refine List.count_eq_zero.mpr ?_
    intro hm
    rcases List.mem_append.mp hm with hm | hm
    · rcases List.mem_map.mp hm with ⟨s, _, hs⟩
      exact indented_ne_open s hs
    · rcases List.mem_singleton.mp hm with h
      exact absurd h.symm (by decide)
  have hclose0 : (body.map (fun s => "    " ++ s)).count "```" = 0 := by
    refine List.count_eq_zero.mpr ?_
    intro hm
    rcases List.mem_map.mp hm with ⟨s, _, hs⟩
    exact indented_ne_close s hs
  have hdecl0 : (body.map (fun s => "    " ++ s)).countP isTypeDecl = 0 := by
    refine List.countP_eq_zero.mpr ?_
    intro x hm
    rcases List.mem_map.mp hm with ⟨s, _, hs⟩
    subst hs
    simp [indented_not_decl s]
  refine ⟨?_, ?_, ?_, ?_⟩
  · simp [List.count_cons, hopen0, h1]
  · simp [List.count_append, List.count_cons, hclose0, h2,
      show ("```mermaid" : String) ≠ "```" by decide]
  · have hne : ("```mermaid" : String) ≠ "```" := by decide
    simp [List.indexOf_cons, beq_eq_decide, hne]
  · simp [List.countP_cons, List.countP_append, hdecl0, h3,
      show isTypeDecl "```mermaid" = false by decide,
      show isTypeDecl "```" = false by decide]

/-- Claim C8: each generated diagram, architecture and workflow, is a
block with exactly one opening fence marker line and exactly one closing
fence marker line, the opening preceding the closing, exactly one
diagram-type declaration line, and an explicit direction token in the
declaration. -/
theorem c8_diagram_fences (components : List String) (lang : String) :
    ((generate_architecture_diagram components).count "```mermaid" = 1 ∧
     (generate_architecture_diagram components).count "```" = 1 ∧
     (generate_architecture_diagram components).indexOf "```mermaid" <
       (generate_architecture_diagram components).indexOf "```" ∧
     (generate_architecture_diagram components).countP isTypeDecl = 1 ∧
     "graph TD" ∈ generate_architecture_diagram components) ∧
    ((generate_workflow_diagram lang).count "```mermaid" = 1 ∧
     (generate_workflow_diagram lang).count "```" = 1 ∧
     (generate_workflow_diagram lang).indexOf "```mermaid" <
       (generate_workflow_diagram lang).indexOf "```" ∧
     (generate_workflow_diagram lang).countP isTypeDecl = 1 ∧
     "flowchart TD" ∈ generate_workflow_diagram lang) := by
  have ha := fenced_lines_spec "graph TD" (archBody components)
    (by decide) (by decide) (by decide)
  have hw := fenced_lines_spec "flowchart TD" (workflowBody lang)
    (by decide) (by decide) (by decide)
  refine ⟨⟨ha.1, ha.2.1, ha.2.2.1, ha.2.2.2, ?_⟩,
          ⟨hw.1, hw.2.1, hw.2.2.1, hw.2.2.2, ?_⟩⟩
  · simp [generate_architecture_diagram]
  · simp [generate_workflow_diagram]

/-- Decidable substring test on character lists. -/
def listHasSub : List Char → List Char → Bool
  | w, [] => w.isEmpty
  | w, l@(_ :: t) => w.isPrefixOf l || listHasSub w t

/-- Modelled from the spec (missing file app/extractors.py):
domain-descriptive vocabulary rewarded by description scoring. -/
def DOMAIN_WORDS : List String :=
  ["application", "system", "tool", "library", "framework", "project",
   "module"]

/-- Modelled from the spec: deterministic candidate score combining
capped length, a terminal-punctuation bonus and a vocabulary bonus. -/
def descScore (s : String) : Nat :=
  min s.length 200 +
  (if s.data.any (fun c => c == '.' || c == '!' || c == '?') then 50 else 0) +
  (if DOMAIN_WORDS.any (fun w => listHasSub w.data s.data) then 30 else 0)

/-- Modelled from the spec (missing file app/extractors.py): pick the
highest-scoring candidate, the empty string for an empty input. -/
def select_best_description : List String → String
  | [] => ""
  | c :: rest =>
    rest.foldl (fun best x => if descScore best < descScore x then x else best) c

/-- Modelled from the spec (missing file app/extractors.py): description
of the project; when no candidate is found, a synthesized fallback
description built from the folder name. -/
def extract_description (candidates : List String) (folder : String) : String :=
  match candidates with
  | [] => "A `" ++ folder ++ "` project"
  | c :: rest => select_best_description (c :: rest)

/-- Modelled from the spec: build context aggregating the analysis
outputs consumed by document assembly. -/
structure BuildContext where
  project_name : String
  description : String
  treeLines : List String
  dependencies : Dependencies
  scripts : List Script
  languages : List Language
  primaryLanguage : String
  archDiagram : List String
  workflowDiagram : List String

/-- Modelled from the spec: fixed per-ecosystem installation commands. -/
def installCommands : String → List String
  | "Python" => ["python -m venv venv", "source venv/bin/activate",
                 "pip install -r requirements.txt"]
  | "JavaScript" => ["npm install"]
  | "Rust" => ["cargo build"]
  | "Java" => ["mvn clean install"]
  | "Go" => ["go mod tidy"]
  | _ => ["# add your build steps here"]

/-- Modelled from the spec: fixed per-ecosystem run commands. -/
def runCommands : String → List String
  | "Python" => ["python main.py"]
  | "JavaScript" => ["npm start"]
  | "Rust" => ["cargo run"]
  | "Java" => ["mvn spring-boot:run"]
  | "Go" => ["go run main.go"]
  | _ => ["# run your project"]

/-- Markdown table row of a dependency. -/
def depRow (d : Dependency) : String :=
  "| " ++ d.name ++ " | " ++ d.version.getD "-" ++ " |"

/-- Markdown table row of a script. -/
def scriptRow (s : Script) : String :=
  "| " ++ s.name ++ " | " ++ s.command ++ " | " ++ s.description.getD "-" ++ " |"

/-- Feature bullet lines derived from the detected languages. -/
def featuresBody (ctx : BuildContext) : List String :=
  ctx.languages.map (fun l => "- " ++ l.name ++ " support")

/-- Fenced installation command block. -/
def installBody (ctx : BuildContext) : List String :=
  "```bash" :: installCommands ctx.primaryLanguage ++ ["```"]

/-- Fenced basic-usage command block. -/
def usageBasicBody (ctx : BuildContext) : List String :=
  "```bash" :: runCommands ctx.primaryLanguage ++ ["```"]

/-- Common-use-cases lines. -/
def usageCasesBody : List String :=
  ["- Explore the project structure below"]

/-- Fenced tree block of the project structure section. -/
def structureBody (ctx : BuildContext) : List String :=
  "```" :: ctx.treeLines ++ ["```"]

/-- Diagram lines of the architecture section. -/
def diagramsBody (ctx : BuildContext) : List String :=
  ctx.archDiagram ++ ctx.workflowDiagram

/-- Scripts table, or the explicit none-found sentinel. -/
def scriptsBody (ctx : BuildContext) : List String :=
  if ctx.scripts.isEmpty then ["No scripts defined"]
  else "| Script | Command | Description |" :: "|---|---|---|" ::
    ctx.scripts.map scriptRow

/-- Dependencies table, or the explicit none-found sentinel. -/
def depsBody (ctx : BuildContext) : List String :=
  if ctx.dependencies.runtime.isEmpty && ctx.dependencies.development.isEmpty
  then ["No dependencies found"]
  else "| Package | Version |" :: "|---|---|" ::
    (ctx.dependencies.runtime ++ ctx.dependencies.development).map depRow

/-- Screenshot placeholder image markup and placeholder comment. -/
def screenshotsBody : List String :=
  ["![Screenshot](screenshot.png)", "<!-- Add your screenshots here -->"]

/-- Pull-request guidance lines of the contributing section. -/
def prBody : List String :=
  ["1. Fork the repository", "2. Create a feature branch",
   "3. Submit a pull request"]

/-- Code-style guidance line. -/
def styleBody : List String := ["Follow the existing code style."]

/-- Testing guidance line. -/
def testingBody : List String := ["Run the tests before submitting changes."]

/-- License section body. -/
def licenseBody : List String :=
  ["This project is provided under the terms in the LICENSE file."]

/-- Modelled from the spec (missing file app/templates.py): the detailed
template, a fixed sequence of sections. -/
def build_detailed (ctx : BuildContext) : List String :=
  ("# " ++ ctx.project_name) ::
  ([ctx.description] ++
  ["## Features"] ++ featuresBody ctx ++
  ["## Installation"] ++ installBody ctx ++
  ["## Usage", "### Basic Usage"] ++ usageBasicBody ctx ++
  ["### Common Use Cases"] ++ usageCasesBody ++
  ["## Project Structure"] ++ structureBody ctx ++
  ["## Architecture"] ++ diagramsBody ctx ++
  ["## Scripts"] ++ scriptsBody ctx ++
  ["## Dependencies"] ++ depsBody ctx ++
  ["## Screenshots"] ++ screenshotsBody ++
  ["## Contributing", "### Pull Requests"] ++ prBody ++
  ["### Code Style"] ++ styleBody ++
  ["### Testing"] ++ testingBody ++
  ["## License"] ++ licenseBody)

/-- Modelled from the spec (missing file app/templates.py): the minimal
template always carries title, installation and usage. -/
def build_minimal (ctx : BuildContext) : List String :=
  ("# " ++ ctx.project_name) ::
  ([ctx.description] ++
  ["## Installation"] ++ installBody ctx ++
  ["## Usage"] ++ usageBasicBody ctx)

/-- Headers required of every detailed document, in order. -/
def REQUIRED_DETAILED_HEADERS : List String :=
  ["## Features", "## Installation", "## Usage", "### Basic Usage",
   "### Common Use Cases", "## Project Structure", "## Architecture",
   "## Scripts", "## Dependencies", "## Screenshots", "## Contributing",
   "### Pull Requests", "### Code Style", "### Testing", "## License"]

/-- Helper: a sublist survives consing the same head on both sides. -/
theorem sub_here {α : Type} (a : α) {L M : List α}
    (h : List.Sublist L M) : List.Sublist (a :: L) (a :: M) := h.cons₂ a

/-- Helper: a sublist survives consing onto the larger side. -/
theorem sub_skip {α : Type} (a : α) {L M : List α}
    (h : List.Sublist L M) : List.Sublist L (a :: M) := h.cons a

/-- Helper: a sublist survives appending a block onto the larger side. -/
theorem sub_skip_block {α : Type} (x : List α) {L M : List α}
    (h : List.Sublist L M) : List.Sublist L (x ++ M) :=
  h.trans (List.sublist_append_right x M)

/-- Claim C6: the detailed template output always starts with the title
header and contains, in the fixed order, the features, installation,
usage (with basic-usage and common-use-cases subsections), project
structure, architecture, scripts, dependencies, screenshots,
contributing (with pull-requests, code-style and testing subsections)
and license headers; the scripts and dependencies sections carry a table
header or an explicit none-found sentinel, and the screenshots
placeholder comment is always present. -/
theorem c6_detailed_template_sections (ctx : BuildContext) :
    (build_detailed ctx).head? = some ("# " ++ ctx.project_name) ∧
    List.Sublist REQUIRED_DETAILED_HEADERS (build_detailed ctx) ∧
    (ctx.scripts = [] → "No scripts defined" ∈ build_detailed ctx) ∧
    (ctx.scripts ≠ [] →
      "| Script | Command | Description |" ∈ build_detailed ctx) ∧
    (ctx.dependencies.runtime = [] ∧ ctx.dependencies.development = [] →
      "No dependencies found" ∈ build_detailed ctx) ∧
    (ctx.dependencies.runtime ≠ [] ∨ ctx.dependencies.development ≠ [] →
      "| Package | Version |" ∈ build_detailed ctx) ∧
    "<!-- Add your screenshots here -->" ∈ build_detailed ctx := by
  refine ⟨rfl, ?_, ?_, ?_, ?_, ?_, ?_⟩
  · simp only [REQUIRED_DETAILED_HEADERS, build_detailed, List.append_assoc,
      List.singleton_append, List.cons_append, List.nil_append]
    refine sub_skip _ ?_
    refine sub_skip _ ?_
    refine sub_here _ ?_
    refine sub_skip_block _ ?_
    refine sub_here _ ?_
    refine sub_skip_block _ ?_
    refine sub_here _ ?_
    refine sub_here _ ?_
    refine sub_skip_block _ ?_
    refine sub_here _ ?_
    refine sub_skip_block _ ?_
    refine sub_here _ ?_
    refine sub_skip_block _ ?_
    refine sub_here _ ?_
    refine sub_skip_block _ ?_
    refine sub_here _ ?_
    refine sub_skip_block _ ?_
    refine sub_here _ ?_
    refine sub_skip_block _ ?_
    refine sub_here _ ?_
    refine sub_skip_block _ ?_
    refine sub_here _ ?_
    refine sub_here _ ?_
    refine sub_skip_block _ ?_
    refine sub_here _ ?_
    refine sub_skip_block _ ?_
    refine sub_here _ ?_
    refine sub_skip_block _ ?_
    refine sub_here _ ?_
    exact List.nil_sublist _
  · intro h
    simp [build_detailed, scriptsBody, h]
  · intro h
    have hne : ctx.scripts.isEmpty = false := by
      cases hs : ctx.scripts with
      | nil => exact absurd hs h
      | cons a t => rfl
    simp [build_detailed, scriptsBody, hne]
  · intro h
    simp [build_detailed, depsBody, h.1, h.2]
  · intro h
    have hne : (ctx.dependencies.runtime.isEmpty &&
        ctx.dependencies.development.isEmpty) = false := by
      rcases h with h | h
      · cases hs : ctx.dependencies.runtime with
        | nil => exact absurd hs h
        | cons a t => rfl
      · cases hs : ctx.dependencies.development with
        | nil => exact absurd hs h
        | cons a t => simp [hs]
    simp [build_detailed, depsBody, hne]
  · simp [build_detailed, screenshotsBody]

/-- Concrete build context used to witness claim C6: no scripts and no
dependencies detected. -/
def c6Ctx : BuildContext :=
  ⟨"proj", "A sample project.", ["src/"], ⟨[], []⟩, [], [], "Python",
   ["arch"], ["flow"]⟩

/-- Witness for claim C6: both none-found sentinels appear in the
detailed document of a context with no scripts and no dependencies. -/
theorem c6_detailed_template_sections_witness :
    "No scripts defined" ∈ build_detailed c6Ctx ∧
    "No dependencies found" ∈ build_detailed c6Ctx :=
  ⟨(c6_detailed_template_sections c6Ctx).2.2.1 rfl,
   (c6_detailed_template_sections c6Ctx).2.2.2.2.1 ⟨rfl, rfl⟩⟩

/-- ProjectStructure of a directory with no files at all. -/
def emptyStructure (folder : String) : ProjectStructure :=
  ⟨folder, [], [], ""⟩

/-- Modelled from the spec: assemble the build context of a scan from
the structure, the description candidates and the extraction results. -/
def assembleContext (folder : String) (s : ProjectStructure)
    (candidates : List String) (deps : Dependencies)
    (scripts : List Script) : BuildContext :=
  { project_name := folder
    description := extract_description candidates folder
    treeLines := [s.tree]
    dependencies := deps
    scripts := scripts
    languages := detect_languages s
    primaryLanguage :=
      ((get_primary_language (detect_languages s)).map Language.name).getD
        "Unknown"
    archDiagram := generate_architecture_diagram s.directories
    workflowDiagram := generate_workflow_diagram
      (((get_primary_language (detect_languages s)).map Language.name).getD
        "Unknown") }

/-- Claim C7: a directory with zero source files and zero manifests
still produces a minimal document starting with a title header and
containing the installation and usage headers, together with a non-empty
synthesized fallback description that appears in the document. -/
theorem c7_minimal_empty_project (folder : String) :
    (build_minimal (assembleContext folder (emptyStructure folder) []
        ⟨[], []⟩ [])).head? = some ("# " ++ folder) ∧
    "## Installation" ∈ build_minimal (assembleContext folder
        (emptyStructure folder) [] ⟨[], []⟩ []) ∧
    "## Usage" ∈ build_minimal (assembleContext folder
        (emptyStructure folder) [] ⟨[], []⟩ []) ∧
    (assembleContext folder (emptyStructure folder) [] ⟨[], []⟩
        []).description = "A `" ++ folder ++ "` project" ∧
    (assembleContext folder (emptyStructure folder) [] ⟨[], []⟩
        []).description ≠ "" ∧
    (assembleContext folder (emptyStructure folder) [] ⟨[], []⟩
        []).description ∈ build_minimal (assembleContext folder
        (emptyStructure folder) [] ⟨[], []⟩ []) := by
  refine ⟨rfl, ?_, ?_, rfl, ?_, ?_⟩
  · simp [build_minimal]
  · simp [build_minimal]
  · intro h
    have h2 := congrArg String.length h
    have h3 : ("A `" : String).length = 3 := rfl
    have h9 : ("` project" : String).length = 9 := rfl
    simp [assembleContext, extract_description, String.length_append,
      h3, h9] at h2
  · simp [build_minimal]

end AutoDocs
